import Mathlib

/-!
Verification development for the multi-agent workflow front-end
(`frontend/src/services/chatContext.tsx`,
`frontend/src/components/agents/WorkFlowBuilder.tsx`,
`frontend/src/components/agents/LanggraphVis.tsx`,
`frontend/src/components/agents/GraphVisualizer.tsx`).

The stateful React code is embedded as explicit state passing: each React
`useState` cell becomes a field of a state structure, each event handler
becomes a function from state (and the event payload) to state.  JavaScript
truthiness tests on optional strings / numbers are modelled faithfully
(`undefined`/`null`/`""`/`0` are falsy).
-/

namespace MAS

/-! ## Data model: graph structure carried by the `graph_json` event
(read by `LanggraphVis.tsx` as `langgraphJson.nodes` / `langgraphJson.edges`). -/

structure VizNode where
  id : String
  label : String
deriving DecidableEq

structure VizEdge where
  source : String
  target : String
deriving DecidableEq

structure Graph where
  nodes : List VizNode
  edges : List VizEdge
deriving DecidableEq

/-- JavaScript truthiness of an optional string: `undefined`/`null` and `""`
are falsy (`if (message.data)`, `if (message.final_answer)`, `!entryNode`). -/
def strTruthy : Option String → Bool
  | none => false
  | some s => !s.isEmpty

/-! ## Execution Stream Client (`chatContext.tsx`, `handleAiAnswer`) -/

/-- Typed inbound WebSocket messages, per the `switch (message.type)` in
`ws.onmessage` (chatContext.tsx lines 247-285).  `other` covers any message
whose `type` matches none of the four cases (the switch has no default
branch, so such a message changes nothing). -/
inductive StreamEvent where
  | graph_json (data : Graph)
  | node_output (node : String) (data : Option String)
  | stream_end (path : Option (List String)) (final_answer : Option String)
  | error (data : String)
  | other
deriving DecidableEq

/-- The React state cells written by the stream handlers:
`aiAnswer`, `isAiTyping`, `langgraphJson`, `executionPath`. -/
structure ChatStreamState where
  aiAnswer : String
  isAiTyping : Bool
  langgraphJson : Option Graph
  executionPath : List String
deriving DecidableEq

/-- The `setExecutionPath` updater for a `node_output` event
(chatContext.tsx lines 261-266): append the node unless
`prevPath.includes(message.node)`. -/
def nodeOutputPath (node : String) (prevPath : List String) : List String :=
  if prevPath.contains node then prevPath else prevPath ++ [node]

/-- The labelled section prefix prepended to a `node_output`'s `data`
(chatContext.tsx line 258). -/
def nodeOutputLabel (node : String) : String :=
  "**Výstup z agenta \"" ++ node ++ "\":**\n\n"

/-- The `ws.onmessage` handler of `handleAiAnswer` (chatContext.tsx lines
247-285), as a reducer on the four state cells.  `fetchChats()` and
`console` calls perform no state mutation relevant here and are dropped. -/
def onMessage (s : ChatStreamState) (m : StreamEvent) : ChatStreamState :=
  match m with
  | .graph_json g => { s with langgraphJson := some g }
  | .node_output node dat =>
      let s :=
        if strTruthy dat then
          { s with aiAnswer :=
              s.aiAnswer ++ nodeOutputLabel node ++ dat.getD "" ++ "\n\n---\n\n" }
        else s
      { s with executionPath := nodeOutputPath node s.executionPath }
  | .stream_end path fin =>
      let s := { s with isAiTyping := false, executionPath := path.getD [] }
      if strTruthy fin then { s with aiAnswer := fin.getD "" } else s
  | .error dat =>
      { s with aiAnswer := s.aiAnswer ++ "\n**CHYBA:** " ++ dat,
               isAiTyping := false }
  | .other => s

/-- State before any run. -/
def initialChatState : ChatStreamState :=
  { aiAnswer := "", isAiTyping := false, langgraphJson := none,
    executionPath := [] }

/-- The state written by the prologue of `handleAiAnswer` when a run actually
starts (chatContext.tsx lines 235-239): answer placeholder, typing flag,
`langgraphJson := null`, `executionPath := ['__start__']`. -/
def resetChatState : ChatStreamState :=
  { aiAnswer := "🧠 Multiagentní systém analyzuje váš požadavek",
    isAiTyping := true,
    langgraphJson := none,
    executionPath := ["__start__"] }

/-- JavaScript truthiness of an optional number (`graphId?: number`). -/
def natTruthy : Option Nat → Bool
  | none => false
  | some n => n != 0

/-- Prologue of `handleAiAnswer(userMessage, graphId)` (chatContext.tsx lines
230-246).  Returns the new state and whether a WebSocket was opened
(`false` on the `!graphId || !activeChat` early return). -/
def startRun (graphId : Option Nat) (activeChat : Option Nat)
    (s : ChatStreamState) : ChatStreamState × Bool :=
  if !natTruthy graphId || activeChat.isNone then
    ({ s with aiAnswer :=
        "Nejprve vytvořte graf k novému chatu a poté znovu napište otázku." },
     false)
  else
    (resetChatState, true)

/-- Incremental-phase events: everything a run receives before its
`stream_end` that the spec calls incremental (`graph_json`, `node_output`). -/
def isIncremental : StreamEvent → Bool
  | .graph_json _ => true
  | .node_output _ _ => true
  | _ => false

/-! ### Connection-level model.

`handleAiAnswer` constructs a fresh `WebSocket` on every successful
invocation (chatContext.tsx line 241) and never closes or references a
previously opened one; the handlers it installs (lines 242-296) close over
the shared React setters only — they capture no run or connection identity
and perform no "am I still the active stream" check.  Hence delivering a
message on any open connection, current or superseded, applies the same
`onMessage` reducer to the shared state. -/

structure WsSystem where
  chat : ChatStreamState
  openConns : List Nat
  nextConn : Nat
deriving DecidableEq

def initialSystem : WsSystem :=
  { chat := initialChatState, openConns := [], nextConn := 0 }

/-- A successful `handleAiAnswer` invocation: resets the chat stream state and
opens a fresh connection.  Faithful to the source, it does **not** close any
previously open connection. -/
def sysStartRun (sys : WsSystem) : WsSystem :=
  { chat := resetChatState,
    openConns := sys.openConns ++ [sys.nextConn],
    nextConn := sys.nextConn + 1 }

/-- Delivery of message `m` on connection `c`: if `c` is still open, its
`onmessage` handler runs, and that handler is the same guard-free state
update for every connection. -/
def sysDeliver (sys : WsSystem) (c : Nat) (m : StreamEvent) : WsSystem :=
  if sys.openConns.contains c then
    { sys with chat := onMessage sys.chat m }
  else sys

/-! ## Graph Builder (`WorkFlowBuilder.tsx`) -/

/-- A builder canvas node (`useEffect`, WorkFlowBuilder.tsx lines 42-53):
`id = agent.id.toString()`, `data.agentId = agent.id`.  Position and style
are presentation only and not modelled. -/
structure FlowNode where
  id : String
  agentId : Nat
deriving DecidableEq

/-- A builder edge as produced by the reactflow `addEdge` helper and labelled
via the edge context menu.  `label` is the branch condition. -/
structure FlowEdge where
  id : String
  source : String
  target : String
  label : Option String
deriving DecidableEq

/-- Edge id generated by the reactflow library for a connection with no
handle ids (the builder uses default nodes, so `sourceHandle` and
`targetHandle` are null): `reactflow__edge-SOURCE-TARGET`. -/
def getEdgeId (source target : String) : String :=
  "reactflow__edge-" ++ source ++ "-" ++ target

/-- Models `connectionExists` of the reactflow library (third-party code
called by `onConnect`): with null handles on both sides it reduces to an
existing edge with the same `source` and `target`. -/
def connectionExists (source target : String) (edges : List FlowEdge) : Bool :=
  edges.any fun el => el.source == source && el.target == target

/-- Models the reactflow `addEdge(params, edges)` helper as invoked by
`onConnect` (WorkFlowBuilder.tsx lines 56-59): ignore connections with a
falsy endpoint, coalesce when an edge with the same (source, target) already
exists, otherwise append a fresh unlabelled edge. -/
def rfAddEdge (source target : String) (edges : List FlowEdge) : List FlowEdge :=
  if source.isEmpty || target.isEmpty then edges
  else if connectionExists source target edges then edges
  else edges ++ [{ id := getEdgeId source target, source := source,
                   target := target, label := none }]

/-- The `onEdgeContextMenu` handler (WorkFlowBuilder.tsx lines 137-148):
set the label of the edge with the given id to `condition || undefined`
(cancelled prompt or empty string removes the condition). -/
def setEdgeCondition (edgeId : String) (condition : Option String)
    (edges : List FlowEdge) : List FlowEdge :=
  edges.map fun e =>
    if e.id == edgeId then
      { e with label := if strTruthy condition then condition else none }
    else e

/-- The UI gesture "add an edge from `source` to `target` carrying
`condition`": a reactflow connection (`onConnect`) followed by assigning the
condition through the context menu of the (source, target) edge — the only
way the component attaches a condition to a transition. -/
def addEdgeWithCondition (source target : String) (condition : Option String)
    (edges : List FlowEdge) : List FlowEdge :=
  setEdgeCondition (getEdgeId source target) condition
    (rfAddEdge source target edges)

/-- The builder's React state: `entryNode`, `nodes`, `edges`, `error`,
`isSubmitting` (WorkFlowBuilder.tsx lines 36-40). -/
structure BuilderState where
  entryNode : Option String
  nodes : List FlowNode
  edges : List FlowEdge
  error : Option String
  isSubmitting : Bool
deriving DecidableEq

def initialBuilder : BuilderState :=
  { entryNode := none, nodes := [], edges := [], error := none,
    isSubmitting := false }

/-- Interactive operations on the builder state.  `rosterReset` is the
`useEffect` on `activeChatAgents` (lines 42-53): it rebuilds the nodes from
the agent roster, clears all edges and clears the entry node.
`canvasDelete` is reactflow's default delete-key handling, which the
component leaves enabled (no `deleteKeyCode` override on the `ReactFlow`
element, lines 127-148) and wires in through the `onNodesChange` /
`onEdgesChange` handlers of `useNodesState` / `useEdgesState` (lines 37-38,
129): pressing Backspace on a selected node makes the library emit a remove
change for that node through `onNodesChange` and remove changes for all
connected edges through `onEdgesChange`, which
`applyNodeChanges`/`applyEdgeChanges` apply by dropping them from the
lists.  The component reacts to none of this, so in particular `entryNode`
is left as it was. -/
inductive BuilderOp where
  | rosterReset (agents : List Nat)
  | connect (source target : String)
  | edgeClick (edgeId : String)
  | edgeMenu (edgeId : String) (condition : Option String)
  | nodeClick (nodeId : String)
  | canvasDelete (nodeId : String)
deriving DecidableEq

def builderStep (s : BuilderState) : BuilderOp → BuilderState
  | .rosterReset agents =>
      { s with nodes := agents.map fun a => { id := toString a, agentId := a },
               edges := [],
               entryNode := none }
  | .connect source target =>
      { s with edges := rfAddEdge source target s.edges }
  | .edgeClick edgeId =>
      { s with edges := s.edges.filter fun e => e.id != edgeId }
  | .edgeMenu edgeId condition =>
      { s with edges := setEdgeCondition edgeId condition s.edges }
  | .nodeClick nodeId =>
      { s with entryNode :=
          if s.entryNode == some nodeId then none else some nodeId }
  | .canvasDelete nodeId =>
      { s with nodes := s.nodes.filter fun n => n.id != nodeId,
               edges := s.edges.filter fun e =>
                 e.source != nodeId && e.target != nodeId }

def nodeIds (s : BuilderState) : List String :=
  s.nodes.map fun n => n.id

/-- UI feasibility of an operation: reactflow only connects rendered nodes,
`onNodeClick` only fires on a rendered node, and only a rendered node can be
selected and delete-keyed, so those ids come from the current node list. -/
def validOp (s : BuilderState) : BuilderOp → Bool
  | .connect source target =>
      (nodeIds s).contains source && (nodeIds s).contains target
  | .nodeClick nodeId => (nodeIds s).contains nodeId
  | .canvasDelete nodeId => (nodeIds s).contains nodeId
  | _ => true

def validTrace : BuilderState → List BuilderOp → Bool
  | _, [] => true
  | s, op :: rest => validOp s op && validTrace (builderStep s op) rest

def runBuilder (ops : List BuilderOp) : BuilderState :=
  ops.foldl builderStep initialBuilder

/-! ### Serialization and save (`handleSaveGraph`, lines 74-119) -/

structure PayloadNode where
  id_in_graph : String
  agent_id : Nat
deriving DecidableEq

structure PayloadEdge where
  from_node_id_in_graph : String
  to_node_id_in_graph : String
  condition : Option String
deriving DecidableEq

structure GraphPayload where
  chat_id : Nat
  nodes : List PayloadNode
  edges : List PayloadEdge
  entry_node_id_in_graph : String
deriving DecidableEq

/-- The `graphData` object built by `handleSaveGraph` (lines 84-96).
`condition: edge.label as string || null` maps a falsy label to null. -/
def serializeGraph (chatId : Nat) (s : BuilderState) : GraphPayload :=
  { chat_id := chatId,
    nodes := s.nodes.map fun n =>
      { id_in_graph := n.id, agent_id := n.agentId },
    edges := s.edges.map fun e =>
      { from_node_id_in_graph := e.source,
        to_node_id_in_graph := e.target,
        condition := if strTruthy e.label then e.label else none },
    entry_node_id_in_graph := s.entryNode.getD "" }

/-- `handleSaveGraph` up to the point where the request body is produced
(lines 74-103): sets `isSubmitting`/`error`, and on `!entryNode` returns
early with a validation message and no request; otherwise the serialized
payload is sent.  Returns the new state and the request payload, `none`
meaning nothing was sent. -/
def handleSaveGraph (chatId : Nat) (s : BuilderState) :
    BuilderState × Option GraphPayload :=
  let s := { s with isSubmitting := true, error := none }
  if !strTruthy s.entryNode then
    ({ s with error := some "Musíte zvolit počatečního agenta",
              isSubmitting := false }, none)
  else
    (s, some (serializeGraph chatId s))

/-! ## Execution Trace Renderer (`LanggraphVis.tsx`, lines 53-99) -/

structure RNode where
  id : String
  label : String
  onPath : Bool
deriving DecidableEq

structure REdge where
  id : String
  source : String
  target : String
  animated : Bool
  seq : Option Nat
deriving DecidableEq

/-- `initialNodes` (lines 65-75): each graph node, highlighted when its id is
in the execution path (`pathNodes.has(n.id)`). -/
def renderNodes (g : Graph) (path : List String) : List RNode :=
  g.nodes.map fun n =>
    { id := n.id, label := n.label, onPath := path.contains n.id }

/-- The sequence-number loop of `initialEdges` (lines 78-84): the first index
`j` with `path[j] = source` and `path[j+1] = target` yields `order = j + 1`;
absent a match, `order` stays null. -/
def edgeOrderFrom (source target : String) : List String → Option Nat
  | [] => none
  | a :: tail =>
      if a = source ∧ tail.head? = some target then some 1
      else (edgeOrderFrom source target tail).map (· + 1)

/-- `initialEdges` (lines 77-96): one rendered edge per graph edge, animated
and numbered exactly when its (source, target) pair is consecutive in the
path. -/
def renderEdges (g : Graph) (path : List String) : List REdge :=
  (g.edges.enum).map fun p =>
    let e := p.2
    let order := edgeOrderFrom e.source e.target path
    { id := "e-" ++ e.source ++ "-" ++ e.target ++ "-" ++ toString p.1,
      source := e.source,
      target := e.target,
      animated := order.isSome,
      seq := order }

/-! ## Layout Engine (`getLayoutedElements` in `LanggraphVis.tsx` lines 22-50
and `GraphVisualizer.tsx` lines 26-56).

Both functions populate a fresh dagre graph from the node ids (with constant
width/height) and the edge (source, target) pairs, run `dagre.layout`, and
read back per-node coordinates.  The dagre library is third-party code; it
is modelled as an arbitrary function from exactly the data handed to it —
the rank direction, the (id, width, height) list and the (source, target)
list — to a coordinate per node id.  Every theorem below quantifies over
that function, so nothing is assumed about the algorithm beyond what the
call site passes in. -/

/-- What the source feeds dagre: rank direction, nodes as
(id, width, height), edges as (source, target). -/
structure DagreInput where
  rankdir : String
  nodes : List (String × Int × Int)
  edges : List (String × String)
deriving DecidableEq

def DagreLayout : Type :=
  DagreInput → String → Int × Int

/-- `getLayoutedElements` of `LanggraphVis.tsx` (rankdir "TB", node size
172×36): returns each rendered node paired with its
`(x - width/2, y - height/2)` position, and the edges unchanged. -/
def getLayoutedElementsLV (L : DagreLayout) (nodes : List RNode)
    (edges : List REdge) : List (RNode × Int × Int) × List REdge :=
  let inp : DagreInput :=
    { rankdir := "TB",
      nodes := nodes.map fun n => (n.id, 172, 36),
      edges := edges.map fun e => (e.source, e.target) }
  (nodes.map fun n => (n, (L inp n.id).1 - 86, (L inp n.id).2 - 18), edges)

/-- `getLayoutedElements` of `GraphVisualizer.tsx` (rankdir "LR", node size
132×36), operating on plain (id only, for layout purposes) nodes. -/
def getLayoutedElementsGV (L : DagreLayout) (nodes : List String)
    (edges : List (String × String)) : List (String × Int × Int) :=
  let inp : DagreInput :=
    { rankdir := "LR",
      nodes := nodes.map fun n => (n, 132, 36),
      edges := edges }
  nodes.map fun n => (n, (L inp n).1 - 66, (L inp n).2 - 18)

/-- The `useMemo` body of `LanggraphViz` (lines 56-99): render nodes and
edges from the graph and execution path, then lay them out. -/
def langgraphVizElements (L : DagreLayout) (g : Graph) (path : List String) :
    List (RNode × Int × Int) × List REdge :=
  getLayoutedElementsLV L (renderNodes g path) (renderEdges g path)

/-- The coordinate assignment produced for each node id. -/
def vizCoords (L : DagreLayout) (g : Graph) (path : List String) :
    List (String × Int × Int) :=
  (langgraphVizElements L g path).1.map fun p => (p.1.id, p.2.1, p.2.2)

/-! ## Helper lemmas -/

theorem strTruthy_some {s : String} (h : s ≠ "") :
    strTruthy (some s) = true := by
  have he : s.isEmpty = false := by
    rw [Bool.eq_false_iff]
    intro hh
    exact h ((String.isEmpty_iff s).mp hh)
  simp [strTruthy, he]

theorem executionPath_node_output (s : ChatStreamState) (node : String)
    (dat : Option String) :
    (onMessage s (.node_output node dat)).executionPath =
      nodeOutputPath node s.executionPath := by
  simp only [onMessage]
  split <;> rfl

theorem nodeOutputPath_eq (node : String) (p : List String) :
    nodeOutputPath node p = if node ∈ p then p else p ++ [node] := by
  unfold nodeOutputPath
  by_cases h : node ∈ p
  · rw [if_pos (List.elem_iff.mpr h), if_pos h]
  · rw [if_neg (fun hc => h (List.elem_iff.mp hc)), if_neg h]

theorem nodeOutputPath_idem (node : String) (p : List String) :
    nodeOutputPath node (nodeOutputPath node p) = nodeOutputPath node p := by
  rw [nodeOutputPath_eq node p]
  by_cases h : node ∈ p
  · rw [if_pos h, nodeOutputPath_eq, if_pos h]
  · rw [if_neg h, nodeOutputPath_eq, if_pos (by simp)]

theorem count_nodeOutputPath (node : String) (p : List String)
    (h : p.count node ≤ 1) : (nodeOutputPath node p).count node = 1 := by
  rw [nodeOutputPath_eq]
  by_cases hm : node ∈ p
  · rw [if_pos hm]
    have hpos : 0 < p.count node := List.count_pos_iff.mpr hm
    omega
  · rw [if_neg hm]
    have hz : p.count node = 0 := by
      by_contra hne
      exact hm (List.count_pos_iff.mp (by omega))
    rw [List.count_append, hz]
    simp

theorem head_nodeOutputPath {x : String} (node : String) {p : List String}
    (h : p.head? = some x) : (nodeOutputPath node p).head? = some x := by
  rw [nodeOutputPath_eq]
  by_cases hm : node ∈ p
  · rwa [if_pos hm]
  · rw [if_neg hm]
    cases p with
    | nil => simp at h
    | cons a t => simpa using h

theorem incremental_preserves_head (x : String) (events : List StreamEvent) :
    ∀ s : ChatStreamState, events.all isIncremental = true →
      s.executionPath.head? = some x →
      (events.foldl onMessage s).executionPath.head? = some x := by
  induction events with
  | nil => intro s _ hh; exact hh
  | cons e rest ih =>
      intro s hall hh
      rw [List.all_cons, Bool.and_eq_true] at hall
      obtain ⟨he, hall'⟩ := hall
      rw [List.foldl_cons]
      apply ih _ hall'
      cases e with
      | graph_json g => simpa [onMessage] using hh
      | node_output node dat =>
          rw [executionPath_node_output]
          exact head_nodeOutputPath node hh
      | stream_end path fin => simp [isIncremental] at he
      | error dat => simp [isIncremental] at he
      | other => simp [isIncremental] at he

/-! ## Claims -/

/-- C1: the claim states that after a new run starts, messages arriving on
the superseded connection leave the current run's ExecutionState unmodified.
The source closes no previous WebSocket and installs guard-free handlers, so
the claim fails: after two `handleAiAnswer` invocations, connection 0 is
still open, and a `node_output` delivered on it appends to the *new* run's
execution path (changing it from `['__start__']` to `['__start__', 'X']`). -/
theorem C1_stale_stream_mutates_state :
    (sysStartRun (sysStartRun initialSystem)).openConns.contains 0 = true ∧
    (sysStartRun (sysStartRun initialSystem)).chat.executionPath
      = ["__start__"] ∧
    (sysDeliver (sysStartRun (sysStartRun initialSystem)) 0
        (.node_output "X" none)).chat.executionPath = ["__start__", "X"] ∧
    (["__start__", "X"] : List String) ≠ ["__start__"] := by
  refine ⟨rfl, rfl, ?_, by decide⟩
  rfl

/-- C2: a `stream_end` event replaces `executionPath` wholesale with the
event's path (whatever was accumulated is discarded, never merged), and a
present (non-empty) `final_answer` replaces the accumulated answer text
rather than appending to it. -/
theorem C2_stream_end_replaces (s : ChatStreamState) (p : List String)
    (f : String) (hf : f ≠ "") :
    (onMessage s (.stream_end (some p) none)).executionPath = p ∧
    (onMessage s (.stream_end (some p) (some f))).executionPath = p ∧
    (onMessage s (.stream_end (some p) (some f))).aiAnswer = f := by
  refine ⟨rfl, ?_, ?_⟩ <;>
    simp [onMessage, strTruthy_some hf]

/-- C2 witness: from `executionPath = [A, B]`, a `stream_end` with
`path = [A, C]` and `final_answer = "done"` yields `executionPath = [A, C]`
and answer `"done"`. -/
theorem C2_stream_end_replaces_witness :
    (onMessage
        { aiAnswer := "partial text", isAiTyping := true,
          langgraphJson := none, executionPath := ["A", "B"] }
        (.stream_end (some ["A", "C"]) none)).executionPath = ["A", "C"] ∧
    (onMessage
        { aiAnswer := "partial text", isAiTyping := true,
          langgraphJson := none, executionPath := ["A", "B"] }
        (.stream_end (some ["A", "C"]) (some "done"))).executionPath
      = ["A", "C"] ∧
    (onMessage
        { aiAnswer := "partial text", isAiTyping := true,
          langgraphJson := none, executionPath := ["A", "B"] }
        (.stream_end (some ["A", "C"]) (some "done"))).aiAnswer = "done" :=
  C2_stream_end_replaces _ ["A", "C"] "done" (by decide)

/-- C3 counterexample: the claim says a `node_output` node is appended
exactly when it is not the *most recently visited* entry, so from path
`[A, B]` a `node_output(A)` would have to append (`A` is not the last
entry `B`).  The source instead checks `prevPath.includes(message.node)`
and leaves the path unchanged. -/
theorem C3_counterexample :
    (onMessage
        { aiAnswer := "", isAiTyping := true, langgraphJson := none,
          executionPath := ["A", "B"] }
        (.node_output "A" none)).executionPath = ["A", "B"] ∧
    (["A", "B"] : List String) ≠ ["A", "B"] ++ ["A"] := by
  exact ⟨rfl, by decide⟩

/-- C3 amended: the node is appended exactly when it does not already occur
*anywhere* in `executionPath`; the event's non-empty `data`, when present,
is appended to the accumulated answer text as a labeled section regardless
of whether the node was appended. -/
theorem C3_node_output_membership (s : ChatStreamState) (node : String)
    (dat : Option String) :
    (node ∈ s.executionPath →
      (onMessage s (.node_output node dat)).executionPath = s.executionPath) ∧
    (node ∉ s.executionPath →
      (onMessage s (.node_output node dat)).executionPath
        = s.executionPath ++ [node]) ∧
    (∀ d, dat = some d → d ≠ "" →
      (onMessage s (.node_output node dat)).aiAnswer
        = s.aiAnswer ++ nodeOutputLabel node ++ d ++ "\n\n---\n\n") ∧
    (dat = none →
      (onMessage s (.node_output node dat)).aiAnswer = s.aiAnswer) := by
  refine ⟨?_, ?_, ?_, ?_⟩
  · intro hmem
    rw [executionPath_node_output, nodeOutputPath_eq, if_pos hmem]
  · intro hmem
    rw [executionPath_node_output, nodeOutputPath_eq, if_neg hmem]
  · intro d hd hne
    subst hd
    simp [onMessage, strTruthy_some hne]
  · intro hd
    subst hd
    simp [onMessage, strTruthy]

/-- C3 amended witness: from the reset path `['__start__']`, a
`node_output("A", "out")` appends both the node and the labeled section. -/
theorem C3_node_output_membership_witness :
    (onMessage resetChatState (.node_output "A" (some "out"))).executionPath
      = ["__start__"] ++ ["A"] ∧
    (onMessage resetChatState (.node_output "A" (some "out"))).aiAnswer
      = resetChatState.aiAnswer ++ nodeOutputLabel "A" ++ "out"
        ++ "\n\n---\n\n" :=
  ⟨(C3_node_output_membership resetChatState "A" (some "out")).2.1
      (by decide),
   (C3_node_output_membership resetChatState "A" (some "out")).2.2.1
      "out" rfl (by decide)⟩

/-- C9: delivering the same `node_output` event twice in succession is
idempotent for the path, and (whenever the node did not already occur more
than once, e.g. in any state built by these handlers) the resulting path
contains the node exactly once. -/
theorem C9_node_output_idempotent (s : ChatStreamState) (node : String)
    (dat : Option String) (h : s.executionPath.count node ≤ 1) :
    (onMessage (onMessage s (.node_output node dat))
        (.node_output node dat)).executionPath
      = (onMessage s (.node_output node dat)).executionPath ∧
    (onMessage (onMessage s (.node_output node dat))
        (.node_output node dat)).executionPath.count node = 1 := by
  have h1 := executionPath_node_output (onMessage s (.node_output node dat))
    node dat
  have h2 := executionPath_node_output s node dat
  constructor
  · rw [h1, h2, nodeOutputPath_idem]
  · rw [h1, h2, nodeOutputPath_idem]
    exact count_nodeOutputPath node s.executionPath h

/-- C9 witness: delivering `node_output("A")` twice from the reset state
yields a path in which `A` occurs exactly once. -/
theorem C9_node_output_idempotent_witness :
    (onMessage (onMessage resetChatState (.node_output "A" none))
        (.node_output "A" none)).executionPath
      = (onMessage resetChatState (.node_output "A" none)).executionPath ∧
    (onMessage (onMessage resetChatState (.node_output "A" none))
        (.node_output "A" none)).executionPath.count "A" = 1 :=
  C9_node_output_idempotent resetChatState "A" none (by decide)

/-- C10: a `handleAiAnswer` invocation with a truthy `graphId` and an active
chat opens the stream and first resets `executionPath` to exactly
`['__start__']` (not `[]`) and `langgraphJson` to null; consequently
`'__start__'` stays at position 1 of the path across any sequence of
incremental (`graph_json` / `node_output`) events, though no event
delivered it. -/
theorem C10_start_resets_path (g c : Nat) (hg : g ≠ 0)
    (s : ChatStreamState) (events : List StreamEvent)
    (hev : events.all isIncremental = true) :
    (startRun (some g) (some c) s).2 = true ∧
    (startRun (some g) (some c) s).1.executionPath = ["__start__"] ∧
    (startRun (some g) (some c) s).1.executionPath ≠ [] ∧
    (startRun (some g) (some c) s).1.langgraphJson = none ∧
    (events.foldl onMessage
        (startRun (some g) (some c) s).1).executionPath.head?
      = some "__start__" := by
  have hrun : startRun (some g) (some c) s = (resetChatState, true) := by
    unfold startRun
    rw [if_neg]
    simp only [natTruthy, Option.isNone_some, Bool.or_false,
      Bool.not_eq_true', Bool.not_eq_false]
    exact bne_iff_ne.mpr hg
  rw [hrun]
  refine ⟨rfl, rfl, by decide, rfl, ?_⟩
  exact incremental_preserves_head "__start__" events resetChatState hev rfl

/-- C10 witness: at `graphId = 1`, an active chat, and the incremental
events `node_output("A", "o")` then `graph_json`, the run opens, the path
resets to `['__start__']` and its head stays `'__start__'`. -/
theorem C10_start_resets_path_witness :
    (startRun (some 1) (some 5) initialChatState).2 = true ∧
    (startRun (some 1) (some 5) initialChatState).1.executionPath
      = ["__start__"] ∧
    (startRun (some 1) (some 5) initialChatState).1.executionPath ≠ [] ∧
    (startRun (some 1) (some 5) initialChatState).1.langgraphJson = none ∧
    ([StreamEvent.node_output "A" (some "o"),
      StreamEvent.graph_json { nodes := [], edges := [] }].foldl onMessage
        (startRun (some 1) (some 5) initialChatState).1).executionPath.head?
      = some "__start__" :=
  C10_start_resets_path 1 5 (by decide) initialChatState _ (by decide)

/-! ### Builder helper lemmas -/

theorem serializeGraph_submit (chatId : Nat) (s : BuilderState) :
    serializeGraph chatId { s with isSubmitting := true, error := none }
      = serializeGraph chatId s := rfl

/-- C4: with no entry node chosen, `handleSaveGraph` fails locally with the
validation message, sends nothing to the server, and leaves the in-memory
nodes and edges unchanged; with an entry node chosen, the serialized graph
payload is sent. -/
theorem C4_save_requires_entry (chatId : Nat) (s : BuilderState) :
    (strTruthy s.entryNode = false →
      (handleSaveGraph chatId s).2 = none ∧
      (handleSaveGraph chatId s).1.nodes = s.nodes ∧
      (handleSaveGraph chatId s).1.edges = s.edges ∧
      (handleSaveGraph chatId s).1.error
        = some "Musíte zvolit počatečního agenta") ∧
    (∀ x, s.entryNode = some x → x ≠ "" →
      (handleSaveGraph chatId s).2 = some (serializeGraph chatId s)) := by
  constructor
  · intro hfalsy
    unfold handleSaveGraph
    rw [if_pos (by simp [hfalsy])]
    exact ⟨rfl, rfl, rfl, rfl⟩
  · intro x hx hne
    unfold handleSaveGraph
    rw [if_neg (by simp [hx, strTruthy_some hne])]
    rw [serializeGraph_submit]

/-- C4 witness: an unset entry node blocks the save of a one-node graph and
leaves it unchanged; setting entry node "1" sends the serialized payload. -/
theorem C4_save_requires_entry_witness :
    ((handleSaveGraph 7
        { entryNode := none, nodes := [{ id := "1", agentId := 1 }],
          edges := [], error := none, isSubmitting := false }).2 = none ∧
     (handleSaveGraph 7
        { entryNode := none, nodes := [{ id := "1", agentId := 1 }],
          edges := [], error := none, isSubmitting := false }).1.nodes
       = [{ id := "1", agentId := 1 }] ∧
     (handleSaveGraph 7
        { entryNode := none, nodes := [{ id := "1", agentId := 1 }],
          edges := [], error := none, isSubmitting := false }).1.edges
       = [] ∧
     (handleSaveGraph 7
        { entryNode := none, nodes := [{ id := "1", agentId := 1 }],
          edges := [], error := none, isSubmitting := false }).1.error
       = some "Musíte zvolit počatečního agenta") ∧
    (handleSaveGraph 7
        { entryNode := some "1", nodes := [{ id := "1", agentId := 1 }],
          edges := [], error := none, isSubmitting := false }).2
      = some (serializeGraph 7
        { entryNode := some "1", nodes := [{ id := "1", agentId := 1 }],
          edges := [], error := none, isSubmitting := false }) :=
  ⟨by
    refine (C4_save_requires_entry 7 _).1 ?_
    decide,
   (C4_save_requires_entry 7 _).2 "1" rfl (by decide)⟩

/-- C5: the claim says removing a node deletes all edges referencing it AND
clears the entry node if it was the removed node, so the serialized payload
never carries a dangling reference.  The code violates the entry-node half:
reactflow's default delete key removes a selected node (and, via the
library, its connected edges) through the component's
`onNodesChange`/`onEdgesChange`, but nothing clears `entryNode`.  Evaluated
at the failing trace — roster reset to agents 1 and 2, connect 1→2, click
node 1 as entry, delete node 1 on the canvas, save: the trace is
UI-feasible, the connected edge is indeed cascaded away, yet `entryNode`
still names the removed node `"1"`, the save succeeds, and the payload's
`entry_node_id_in_graph` names no payload node — a dangling entry reference
is sent to the server. -/
theorem C5_canvas_delete_dangling_entry :
    validTrace initialBuilder
      [.rosterReset [1, 2], .connect "1" "2", .nodeClick "1",
       .canvasDelete "1"] = true ∧
    (runBuilder [.rosterReset [1, 2], .connect "1" "2", .nodeClick "1",
       .canvasDelete "1"]).edges = [] ∧
    (runBuilder [.rosterReset [1, 2], .connect "1" "2", .nodeClick "1",
       .canvasDelete "1"]).entryNode = some "1" ∧
    nodeIds (runBuilder [.rosterReset [1, 2], .connect "1" "2",
       .nodeClick "1", .canvasDelete "1"]) = ["2"] ∧
    (handleSaveGraph 7 (runBuilder [.rosterReset [1, 2], .connect "1" "2",
       .nodeClick "1", .canvasDelete "1"])).2
      = some (serializeGraph 7 (runBuilder [.rosterReset [1, 2],
          .connect "1" "2", .nodeClick "1", .canvasDelete "1"])) ∧
    (serializeGraph 7 (runBuilder [.rosterReset [1, 2], .connect "1" "2",
       .nodeClick "1", .canvasDelete "1"])).entry_node_id_in_graph
      ∉ (serializeGraph 7 (runBuilder [.rosterReset [1, 2], .connect "1" "2",
          .nodeClick "1", .canvasDelete "1"])).nodes.map
          PayloadNode.id_in_graph := by
  decide

/-- C6 counterexample: the claim says that after addEdge(A,B,"yes"),
addEdge(A,B,"yes"), addEdge(A,B,"no"), exactly two edges connect A to B.
In the source, an edge is added by a reactflow connection and its condition
is attached afterwards through the edge context menu; the reactflow
`addEdge` helper coalesces on (source, target) alone, so the third addition
is also coalesced and exactly one edge connects A to B. -/
theorem C6_counterexample :
    ((addEdgeWithCondition "A" "B" (some "no")
        (addEdgeWithCondition "A" "B" (some "yes")
          (addEdgeWithCondition "A" "B" (some "yes") []))).filter
        (fun e => e.source == "A" && e.target == "B")).length = 1 ∧
    ¬ ((addEdgeWithCondition "A" "B" (some "no")
        (addEdgeWithCondition "A" "B" (some "yes")
          (addEdgeWithCondition "A" "B" (some "yes") []))).filter
        (fun e => e.source == "A" && e.target == "B")).length = 2 := by
  decide

/-- C6 amended: a connection whose (source, target) pair matches an existing
edge is coalesced regardless of any condition carried by either edge, and a
condition is attached by relabelling the one existing edge; hence the
scenario addEdge(A,B,"yes"), addEdge(A,B,"yes"), addEdge(A,B,"no") yields
exactly one edge from A to B, carrying condition "no". -/
theorem C6_duplicate_edges_coalesced (edges : List FlowEdge)
    (source target : String)
    (h : ∃ e ∈ edges, e.source = source ∧ e.target = target) :
    rfAddEdge source target edges = edges ∧
    ((addEdgeWithCondition "A" "B" (some "no")
        (addEdgeWithCondition "A" "B" (some "yes")
          (addEdgeWithCondition "A" "B" (some "yes") []))).filter
        (fun e => e.source == "A" && e.target == "B")).length = 1 ∧
    (∀ e ∈ addEdgeWithCondition "A" "B" (some "no")
        (addEdgeWithCondition "A" "B" (some "yes")
          (addEdgeWithCondition "A" "B" (some "yes") [])),
      e.label = some "no") := by
  refine ⟨?_, by decide, by decide⟩
  obtain ⟨e, he, hsrc, htgt⟩ := h
  have hex : connectionExists source target edges = true := by
    unfold connectionExists
    rw [List.any_eq_true]
    exact ⟨e, he, by rw [Bool.and_eq_true, beq_iff_eq, beq_iff_eq]
                     exact ⟨hsrc, htgt⟩⟩
  simp [rfAddEdge, hex]

/-- C6 amended witness: with one existing A→B edge (labelled "yes"), a
second A→B connection leaves the edge set unchanged. -/
theorem C6_duplicate_edges_coalesced_witness :
    rfAddEdge "A" "B"
        [{ id := getEdgeId "A" "B", source := "A", target := "B",
           label := some "yes" }]
      = [{ id := getEdgeId "A" "B", source := "A", target := "B",
           label := some "yes" }] ∧
    ((addEdgeWithCondition "A" "B" (some "no")
        (addEdgeWithCondition "A" "B" (some "yes")
          (addEdgeWithCondition "A" "B" (some "yes") []))).filter
        (fun e => e.source == "A" && e.target == "B")).length = 1 ∧
    (∀ e ∈ addEdgeWithCondition "A" "B" (some "no")
        (addEdgeWithCondition "A" "B" (some "yes")
          (addEdgeWithCondition "A" "B" (some "yes") [])),
      e.label = some "no") :=
  C6_duplicate_edges_coalesced _ "A" "B"
    ⟨{ id := getEdgeId "A" "B", source := "A", target := "B",
       label := some "yes" }, by decide, rfl, rfl⟩

/-! ### Renderer helper lemmas -/

theorem edgeOrderFrom_position (source target : String) :
    ∀ (p : List String) (k : Nat),
      edgeOrderFrom source target p = some k →
      1 ≤ k ∧ p.get? (k - 1) = some source ∧ p.get? k = some target := by
  intro p
  induction p with
  | nil => intro k hk; simp [edgeOrderFrom] at hk
  | cons a tail ih =>
      intro k hk
      rw [edgeOrderFrom] at hk
      split at hk
      · next hc =>
          obtain ⟨has, hht⟩ := hc
          injection hk with hk
          subst hk
          subst has
          refine ⟨le_refl 1, rfl, ?_⟩
          cases tail with
          | nil => simp at hht
          | cons b rest => simpa using hht
      · next hc =>
          obtain ⟨m, hm, hmk⟩ := Option.map_eq_some'.mp hk
          obtain ⟨hm1, hms, hmt⟩ := ih m hm
          subst hmk
          refine ⟨by omega, ?_, ?_⟩
          · have hidx : m + 1 - 1 = m := rfl
            rw [hidx]
            obtain ⟨m', rfl⟩ : ∃ m', m = m' + 1 := ⟨m - 1, by omega⟩
            have : m' + 1 - 1 = m' := rfl
            rw [this] at hms
            simpa using hms
          · simpa using hmt

theorem edgeOrderFrom_isSome (source target : String) :
    ∀ p : List String,
      (edgeOrderFrom source target p).isSome = true ↔
      ∃ j, p.get? j = some source ∧ p.get? (j + 1) = some target := by
  intro p
  induction p with
  | nil =>
      simp [edgeOrderFrom]
  | cons a tail ih =>
      rw [edgeOrderFrom]
      split
      · next hc =>
          obtain ⟨has, hht⟩ := hc
          subst has
          simp only [Option.isSome_some, true_iff]
          refine ⟨0, rfl, ?_⟩
          cases tail with
          | nil => simp at hht
          | cons b rest => simpa using hht
      · next hc =>
          rw [Option.isSome_map', ih]
          constructor
          · rintro ⟨j, hjs, hjt⟩
            exact ⟨j + 1, by simpa using hjs, by simpa using hjt⟩
          · rintro ⟨j, hjs, hjt⟩
            cases j with
            | zero =>
                exfalso
                apply hc
                refine ⟨by simpa using hjs, ?_⟩
                cases tail with
                | nil => simp at hjt
                | cons b rest => simpa using hjt
            | succ j' =>
                exact ⟨j', by simpa using hjs, by simpa using hjt⟩

theorem renderNodes_map_id (g : Graph) (p : List String) :
    (renderNodes g p).map RNode.id = g.nodes.map VizNode.id := by
  simp only [renderNodes, List.map_map]
  rfl

theorem renderEdges_map_pair (g : Graph) (p : List String) :
    (renderEdges g p).map (fun re => (re.source, re.target))
      = g.edges.map (fun e => (e.source, e.target)) := by
  simp only [renderEdges, List.map_map]
  have henum : (g.edges.enum).map
      (fun q : Nat × VizEdge => (q.2.source, q.2.target))
      = (g.edges.enum.map Prod.snd).map
          (fun e : VizEdge => (e.source, e.target)) := by
    rw [List.map_map]
    rfl
  calc (g.edges.enum).map _
      = (g.edges.enum).map
          (fun q : Nat × VizEdge => (q.2.source, q.2.target)) := rfl
    _ = (g.edges.enum.map Prod.snd).map
          (fun e : VizEdge => (e.source, e.target)) := henum
    _ = g.edges.map (fun e => (e.source, e.target)) := by
          rw [List.enum_map_snd]

/-- C7: for every graph and execution path, a rendered node is highlighted
exactly when its id occurs in the path; a rendered edge is animated exactly
when its (source, target) occurs as a consecutive pair in the path, its
sequence label being present exactly then and naming a 1-based position at
which the pair occurs; and path ids absent from the graph are simply
ignored — the renderer still emits exactly the graph's nodes and edges. -/
theorem C7_trace_renderer (g : Graph) (p : List String) :
    ((renderNodes g p).map RNode.id = g.nodes.map VizNode.id) ∧
    (∀ rn ∈ renderNodes g p, (rn.onPath = true ↔ rn.id ∈ p)) ∧
    ((renderEdges g p).map (fun re => (re.source, re.target))
      = g.edges.map (fun e => (e.source, e.target))) ∧
    (∀ re ∈ renderEdges g p,
      ((re.animated = true) ↔
        ∃ j, p.get? j = some re.source ∧ p.get? (j + 1) = some re.target) ∧
      (re.animated = re.seq.isSome) ∧
      (∀ k, re.seq = some k →
        1 ≤ k ∧ p.get? (k - 1) = some re.source ∧ p.get? k = some re.target)) := by
  refine ⟨renderNodes_map_id g p, ?_, renderEdges_map_pair g p, ?_⟩
  · intro rn hrn
    obtain ⟨n, _, hfn⟩ := List.mem_map.mp hrn
    cases hfn
    exact List.elem_iff
  · intro re hre
    obtain ⟨q, _, hfq⟩ := List.mem_map.mp hre
    cases hfq
    refine ⟨?_, rfl, ?_⟩
    · exact edgeOrderFrom_isSome q.2.source q.2.target p
    · intro k hk
      exact edgeOrderFrom_position q.2.source q.2.target p k hk

/-- C7 witness: graph with nodes A, B and edge A→B, path
`[A, X, B]` (X unknown to the graph): A and B are highlighted, the unknown
id X is ignored, and the A→B edge is not animated since (A, B) is not
consecutive in the path. -/
theorem C7_trace_renderer_witness :
    ((renderNodes
        { nodes := [{ id := "A", label := "A" }, { id := "B", label := "B" }],
          edges := [{ source := "A", target := "B" }] }
        ["A", "X", "B"]).map RNode.id = ["A", "B"]) ∧
    (∀ rn ∈ renderNodes
        { nodes := [{ id := "A", label := "A" }, { id := "B", label := "B" }],
          edges := [{ source := "A", target := "B" }] }
        ["A", "X", "B"], (rn.onPath = true ↔ rn.id ∈ ["A", "X", "B"])) ∧
    (∀ re ∈ renderEdges
        { nodes := [{ id := "A", label := "A" }, { id := "B", label := "B" }],
          edges := [{ source := "A", target := "B" }] }
        ["A", "X", "B"],
      ((re.animated = true) ↔
        ∃ j, (["A", "X", "B"] : List String).get? j = some re.source ∧
          (["A", "X", "B"] : List String).get? (j + 1) = some re.target)) := by
  refine ⟨(C7_trace_renderer _ ["A", "X", "B"]).1, ?_, ?_⟩
  · intro rn hrn
    exact (C7_trace_renderer _ ["A", "X", "B"]).2.1 rn hrn
  · intro re hre
    exact ((C7_trace_renderer _ ["A", "X", "B"]).2.2.2 re hre).1

/-- C8: the coordinates assigned by the layout pipeline are a pure,
deterministic function of the node id list and edge (source, target) list
(in order) alone: for any dagre layout function, any two graphs with the
same node ids and edge pairs, and any two execution paths, the produced
per-node coordinates are identical — in particular they do not depend on
the execution path. -/
theorem C8_layout_deterministic (L : DagreLayout) (g g' : Graph)
    (p p' : List String)
    (hn : g.nodes.map VizNode.id = g'.nodes.map VizNode.id)
    (he : g.edges.map (fun e => (e.source, e.target))
        = g'.edges.map (fun e => (e.source, e.target))) :
    vizCoords L g p = vizCoords L g' p' := by
  have hinp : ∀ (gg : Graph) (pp : List String),
      ({ rankdir := "TB",
         nodes := (renderNodes gg pp).map fun n => (n.id, 172, 36),
         edges := (renderEdges gg pp).map fun e => (e.source, e.target) }
        : DagreInput)
      = { rankdir := "TB",
          nodes := (gg.nodes.map VizNode.id).map fun i => (i, 172, 36),
          edges := gg.edges.map fun e => (e.source, e.target) } := by
    intro gg pp
    refine congrArg₂ (fun a b => DagreInput.mk "TB" a b) ?_ ?_
    · rw [← renderNodes_map_id gg pp, List.map_map]
      rfl
    · rw [renderEdges_map_pair]
  have hcoords : ∀ (gg : Graph) (pp : List String),
      vizCoords L gg pp
        = (gg.nodes.map VizNode.id).map fun i =>
            (i,
             (L { rankdir := "TB",
                  nodes := (gg.nodes.map VizNode.id).map fun j => (j, 172, 36),
                  edges := gg.edges.map fun e => (e.source, e.target) } i).1
               - 86,
             (L { rankdir := "TB",
                  nodes := (gg.nodes.map VizNode.id).map fun j => (j, 172, 36),
                  edges := gg.edges.map fun e => (e.source, e.target) } i).2
               - 18) := by
    intro gg pp
    unfold vizCoords langgraphVizElements getLayoutedElementsLV
    simp only [List.map_map, hinp gg pp]
    simp only [renderNodes, List.map_map]
    rfl
  rw [hcoords g p, hcoords g' p', hn, he]

/-- C8 witness: the same concrete graph laid out against two different
execution paths (one empty, one mid-run) receives identical coordinates for
every node, for an arbitrary constant layout function. -/
theorem C8_layout_deterministic_witness :
    vizCoords (fun _ _ => (100, 50))
      { nodes := [{ id := "A", label := "A" }, { id := "B", label := "B" }],
        edges := [{ source := "A", target := "B" }] } []
    = vizCoords (fun _ _ => (100, 50))
      { nodes := [{ id := "A", label := "A" }, { id := "B", label := "B" }],
        edges := [{ source := "A", target := "B" }] } ["A", "B"] :=
  C8_layout_deterministic (fun _ _ => (100, 50)) _ _ [] ["A", "B"] rfl rfl

end MAS
